/-
Verification of the api_cache caching reverse proxy (Go) against its design
specification.

Shallow embedding notes:
  * Compiled regular expressions (`*regexp.Regexp`) are modelled as Boolean
    matchers `String → Bool`; a `nil` compiled regex is `none`.
  * Go maps (`map[string][]string`, `url.Values`, `http.Header`) are modelled
    as association lists with map semantics (lookup finds the first entry;
    a map never holds two entries for one key). Iteration order of a Go map
    is unspecified, but every place the code iterates a map combines the
    results with an order-insensitive conjunction, so list order is harmless.
  * `time.Duration` (int64 nanoseconds) is modelled as `Int`; the values the
    claims touch are far below the int64 range, so wrap-around is not modelled.
  * Pointers into the rule slices (`*EndpointCacheConfig`) are modelled as
    indices into the rule list.
-/
import Mathlib

namespace ApiCache

/-- A compiled regular expression, modelled as its matching function
(`regexp.Regexp.MatchString`). -/
abbrev Matcher := String → Bool

/-- `url.Values` / `map[string][]string`: an association list from parameter
name to the list of supplied values. -/
abbrev Values := List (String × List String)

/-- Go map indexing `m[k]` with its `ok` flag: `none` models `ok = false`. -/
def valuesGet (vs : Values) (k : String) : Option (List String) :=
  (vs.find? fun p => p.1 == k).map (·.2)

/-- `url.Values.Get` / `http.Header.Get`: the first value for the key, or the
empty string when the key is missing or has no values. -/
def valuesGetFirst (vs : Values) (k : String) : String :=
  match valuesGet vs k with
  | some (v :: _) => v
  | _ => ""

/-- One nanosecond, the unit of `time.Duration`. -/
def nanosecond : Int := 1

/-- `time.Second` in nanoseconds. -/
def second : Int := 1000000000

/-- `time.Minute` in nanoseconds. -/
def minute : Int := 60 * second

/-- `time.Hour` in nanoseconds. -/
def hour : Int := 60 * minute

/-- `config.EndpointCacheConfig` (the authoritative version of the source,
which carries query-parameter discrimination). `compiledRegex` is `none`
exactly when the Go field is `nil`; `matchQueryParams` and
`compiledQueryParamRegex` are the two query-parameter constraint maps.
`rps`/payload fields not consulted by any claim are kept as data. -/
structure EndpointCacheConfig where
  path : String
  pathRegex : String
  methods : List String
  ttl : Int
  cacheKeyHeaders : List String
  cacheKeyQueryParams : List String
  matchQueryParams : List (String × List String)
  matchQueryParamsRegex : List (String × List String)
  compiledRegex : Option Matcher
  compiledQueryParamRegex : List (String × List Matcher)

/-- `config.EndpointRateLimitConfig`. The numeric rate fields are carried as
data (`requestsPerSecond` is a Go float64; it is never computed with in the
resolution logic, so it is carried as an exact rational). -/
structure EndpointRateLimitConfig where
  path : String
  pathRegex : String
  requestsPerSecond : Rat
  burst : Int
  compiledRegex : Option Matcher

/-- `config.MatchType`: how a request resolved to a cache rule. -/
inductive MatchType where
  | exact
  | regex
  | queryParam
  | fallbackExact
  | fallbackRegex
  | default
deriving DecidableEq, Repr

/-- The path-match kind recorded while scanning (`pathMatchType` in the Go
loop, before fallback conversion). -/
inductive PathMatch where
  | exact
  | regex
deriving DecidableEq, Repr

/-- The path test of the cache-resolution loop: exact string equality is
attempted first (`ep.Path != "" && ep.Path == path`), else the compiled
pattern (`ep.compiledRegex != nil && ep.compiledRegex.MatchString(path)`). -/
def pathMatchOf (ep : EndpointCacheConfig) (path : String) : Option PathMatch :=
  if !(ep.path == "") && ep.path == path then
    some .exact
  else
    match ep.compiledRegex with
    | some r => if r path then some .regex else none
    | none => none

/-- One allow-list constraint: the first supplied value for `param` must equal
one of `allowedValues`; a parameter absent from the request, or present with
an empty value slice, fails. -/
def matchQueryParamOk (queryParams : Values) (param : String)
    (allowedValues : List String) : Bool :=
  match valuesGet queryParams param with
  | none => false
  | some [] => false
  | some (v :: _) => allowedValues.any fun a => a == v

/-- One pattern constraint: the first supplied value for `param` must match at
least one of the compiled patterns; absent or value-less parameters fail. -/
def matchQueryParamRegexOk (queryParams : Values) (param : String)
    (regexList : List Matcher) : Bool :=
  match valuesGet queryParams param with
  | none => false
  | some [] => false
  | some (v :: _) => regexList.any fun r => r v

/-- `allParamsMatch` of the resolution loop: every allow-list constraint and
every pattern constraint of the rule must hold. -/
def allParamsMatch (ep : EndpointCacheConfig) (queryParams : Values) : Bool :=
  (ep.matchQueryParams.all fun p => matchQueryParamOk queryParams p.1 p.2) &&
  (ep.compiledQueryParamRegex.all fun p => matchQueryParamRegexOk queryParams p.1 p.2)

/-- `hasQueryParamMatching`: the rule discriminates on query parameters. -/
def hasQueryParamMatching (ep : EndpointCacheConfig) : Bool :=
  decide (0 < ep.matchQueryParams.length) || decide (0 < ep.compiledQueryParamRegex.length)

/-- The body of `Config.GetEndpointCacheConfigMatch`'s scan, with the current
rule index threaded explicitly (Go iterates `c.Cache.Endpoints` by index) and
the first-seen fallback rule carried in `fallback`. -/
def GetMatchAux (path method : String) (queryParams : Values) :
    Nat → List EndpointCacheConfig → Option (Nat × PathMatch) →
    Option Nat × MatchType
  | _, [], fallback =>
    match fallback with
    | some (i, .exact) => (some i, .fallbackExact)
    | some (i, .regex) => (some i, .fallbackRegex)
    | none => (none, .default)
  | i, ep :: rest, fallback =>
    if !(ep.methods.contains method) then
      GetMatchAux path method queryParams (i + 1) rest fallback
    else
      match pathMatchOf ep path with
      | none => GetMatchAux path method queryParams (i + 1) rest fallback
      | some pmt =>
        if !(hasQueryParamMatching ep) then
          GetMatchAux path method queryParams (i + 1) rest
            (fallback.orElse fun _ => some (i, pmt))
        else if allParamsMatch ep queryParams then
          (some i, .queryParam)
        else
          GetMatchAux path method queryParams (i + 1) rest fallback

/-- `Config.GetEndpointCacheConfigMatch`: resolves the cache rule for a
request, returning the index of the matched rule (the Go code returns a
pointer into the endpoint slice) and the match provenance. -/
def GetEndpointCacheConfigMatch (endpoints : List EndpointCacheConfig)
    (path method : String) (queryParams : Values) : Option Nat × MatchType :=
  GetMatchAux path method queryParams 0 endpoints none

/-- `Config.GetEndpointCacheConfig`: the matched rule itself. -/
def GetEndpointCacheConfig (endpoints : List EndpointCacheConfig)
    (path method : String) (queryParams : Values) : Option EndpointCacheConfig :=
  match (GetEndpointCacheConfigMatch endpoints path method queryParams).1 with
  | some i => endpoints.get? i
  | none => none

/-- The rate-limit rule test for one rule: exact path first, then pattern. -/
def rlExactHit (ep : EndpointRateLimitConfig) (path : String) : Bool :=
  !(ep.path == "") && ep.path == path

/-- The pattern half of the rate-limit rule test. -/
def rlRegexHit (ep : EndpointRateLimitConfig) (path : String) : Bool :=
  match ep.compiledRegex with
  | some r => r path
  | none => false

/-- The scan of `Config.GetEndpointRateLimitConfig` with the index threaded. -/
def GetRateLimitAux (path : String) :
    Nat → List EndpointRateLimitConfig → Option Nat
  | _, [] => none
  | i, ep :: rest =>
    if rlExactHit ep path then some i
    else if rlRegexHit ep path then some i
    else GetRateLimitAux path (i + 1) rest

/-- `Config.GetEndpointRateLimitConfig`: index of the first rule whose exact
path equals the request path or whose compiled pattern matches it. -/
def GetEndpointRateLimitConfig (endpoints : List EndpointRateLimitConfig)
    (path : String) : Option Nat :=
  GetRateLimitAux path 0 endpoints

/-- Modelled from the spec (§4.1, for comparison with the code): a rule is
eligible when its method set and its path (exact string, else pattern) match
the request. -/
def specEligible (ep : EndpointCacheConfig) (path method : String) : Bool :=
  ep.methods.contains method && (pathMatchOf ep path).isSome

/-- Modelled from the spec (§4.1): an eligible discriminating rule all of
whose query-parameter constraints hold — the kind of rule that wins
immediately. -/
def specDiscWin (path method : String) (queryParams : Values)
    (ep : EndpointCacheConfig) : Bool :=
  specEligible ep path method && hasQueryParamMatching ep &&
    allParamsMatch ep queryParams

/-- Modelled from the spec (§4.1): an eligible rule with no query-parameter
discrimination — a fallback candidate. -/
def specFallback (path method : String) (ep : EndpointCacheConfig) : Bool :=
  specEligible ep path method && !(hasQueryParamMatching ep)

/-- Index of the first list element satisfying `p`, counting from `i`
(the specification-side first-match search). -/
def specFindIdx (p : α → Bool) : Nat → List α → Option Nat
  | _, [] => none
  | i, x :: l => if p x then some i else specFindIdx p (i + 1) l

/-- Modelled from the spec (§4.1, the claim's words): the first rule whose
query-parameter constraints all hold wins; otherwise the first-seen fallback;
otherwise no rule. -/
def specCacheResolve (endpoints : List EndpointCacheConfig)
    (path method : String) (queryParams : Values) : Option Nat :=
  match specFindIdx (specDiscWin path method queryParams) 0 endpoints with
  | some i => some i
  | none => specFindIdx (specFallback path method) 0 endpoints

/-- Modelled from the spec (§4.1, amended for C2): the first rule in list
order that matches by exact path or by compiled pattern. -/
def specRateLimitResolve (endpoints : List EndpointRateLimitConfig)
    (path : String) : Option Nat :=
  specFindIdx (fun ep => rlExactHit ep path || rlRegexHit ep path) 0 endpoints

/-! SHA-256 (FIPS 180-4), the digest used by `GenerateCacheKey` through Go's
`crypto/sha256`. Word arithmetic is `Nat` reduced mod `2 ^ 32`. -/

namespace SHA256

/-- 32-bit truncation. -/
def mask32 (x : Nat) : Nat := x % 2 ^ 32

/-- 32-bit right rotation (arguments below `2 ^ 32`). -/
def rotr (n x : Nat) : Nat := mask32 ((x >>> n) ||| (x <<< (32 - n)))

/-- `Ch(x, y, z)` of FIPS 180-4. -/
def ch (x y z : Nat) : Nat := (x &&& y) ^^^ ((x ^^^ 0xffffffff) &&& z)

/-- `Maj(x, y, z)` of FIPS 180-4. -/
def maj (x y z : Nat) : Nat := (x &&& y) ^^^ (x &&& z) ^^^ (y &&& z)

/-- `Σ₀` of FIPS 180-4. -/
def bigSigma0 (x : Nat) : Nat := rotr 2 x ^^^ rotr 13 x ^^^ rotr 22 x

/-- `Σ₁` of FIPS 180-4. -/
def bigSigma1 (x : Nat) : Nat := rotr 6 x ^^^ rotr 11 x ^^^ rotr 25 x

/-- `σ₀` of FIPS 180-4. -/
def smallSigma0 (x : Nat) : Nat := rotr 7 x ^^^ rotr 18 x ^^^ (x >>> 3)

/-- `σ₁` of FIPS 180-4. -/
def smallSigma1 (x : Nat) : Nat := rotr 17 x ^^^ rotr 19 x ^^^ (x >>> 10)

/-- The 64 round constants. -/
def K : List Nat :=
  [1116352408, 1899447441, 3049323471, 3921009573,
   961987163, 1508970993, 2453635748, 2870763221,
   3624381080, 310598401, 607225278, 1426881987,
   1925078388, 2162078206, 2614888103, 3248222580,
   3835390401, 4022224774, 264347078, 604807628,
   770255983, 1249150122, 1555081692, 1996064986,
   2554220882, 2821834349, 2952996808, 3210313671,
   3336571891, 3584528711, 113926993, 338241895,
   666307205, 773529912, 1294757372, 1396182291,
   1695183700, 1986661051, 2177026350, 2456956037,
   2730485921, 2820302411, 3259730800, 3345764771,
   3516065817, 3600352804, 4094571909, 275423344,
   430227734, 506948616, 659060556, 883997877,
   958139571, 1322822218, 1537002063, 1747873779,
   1955562222, 2024104815, 2227730452, 2361852424,
   2428436474, 2756734187, 3204031479, 3329325298]

/-- The initial hash value. -/
def H0 : List Nat :=
  [1779033703, 3144134277, 1013904242, 2773480762,
   1359893119, 2600822924, 528734635, 1541459225]

/-- Extends a 16-word block to the 64-word message schedule (`n` words left
to append). -/
def scheduleAux : Nat → Array Nat → Array Nat
  | 0, w => w
  | n + 1, w =>
    let t := w.size
    let v := mask32 (smallSigma1 (w[t - 2]!) + w[t - 7]! +
      smallSigma0 (w[t - 15]!) + w[t - 16]!)
    scheduleAux n (w.push v)

/-- One compression round over the working variables `(a,…,h)`. -/
def compressRound (st : Nat × Nat × Nat × Nat × Nat × Nat × Nat × Nat)
    (kw : Nat × Nat) : Nat × Nat × Nat × Nat × Nat × Nat × Nat × Nat :=
  let (a, b, c, d, e, f, g, h) := st
  let t1 := mask32 (h + bigSigma1 e + ch e f g + kw.1 + kw.2)
  let t2 := mask32 (bigSigma0 a + maj a b c)
  (mask32 (t1 + t2), a, b, c, mask32 (d + t1), e, f, g)

/-- Processes one 16-word block into the running hash. -/
def processBlock (h : List Nat) (block : List Nat) : List Nat :=
  let w := (scheduleAux 48 block.toArray).toList
  match h with
  | [h0, h1, h2, h3, h4, h5, h6, h7] =>
    let st := (K.zip w).foldl compressRound (h0, h1, h2, h3, h4, h5, h6, h7)
    let (a, b, c, d, e, f, g, hh) := st
    [mask32 (h0 + a), mask32 (h1 + b), mask32 (h2 + c), mask32 (h3 + d),
     mask32 (h4 + e), mask32 (h5 + f), mask32 (h6 + g), mask32 (h7 + hh)]
  | _ => h

/-- The 64-bit big-endian byte encoding of `n`. -/
def bigEndian8 (n : Nat) : List Nat :=
  (List.range 8).map fun i => (n >>> (8 * (7 - i))) &&& 0xff

/-- FIPS padding: `0x80`, zeros to 56 mod 64, then the bit length. -/
def pad (msg : List Nat) : List Nat :=
  let padZeros := (64 - (msg.length + 9) % 64) % 64
  msg ++ 0x80 :: List.replicate padZeros 0 ++ bigEndian8 (8 * msg.length)

/-- Groups a byte list into 64-byte blocks. -/
def chunks64 : List Nat → List (List Nat)
  | [] => []
  | x :: rest => ((x :: rest).take 64) :: chunks64 ((x :: rest).drop 64)
termination_by l => l.length
decreasing_by simp; omega

/-- Packs bytes into big-endian 32-bit words. -/
def toWords : List Nat → List Nat
  | b0 :: b1 :: b2 :: b3 :: rest =>
    ((b0 <<< 24) + (b1 <<< 16) + (b2 <<< 8) + b3) :: toWords rest
  | _ => []

/-- Lowercase hex digits. -/
def hexChars : List Char := "0123456789abcdef".data

/-- The 8-hex-digit rendering of one 32-bit word. -/
def wordHex (w : Nat) : List Char :=
  (List.range 8).map fun i => hexChars.getD ((w >>> (4 * (7 - i))) &&& 0xf) '0'

/-- SHA-256 of a string's UTF-8 bytes, hex-encoded lowercase (what
`hex.EncodeToString(sha256.Sum256(...))` produces). -/
def sha256hex (s : String) : String :=
  let bytes := s.toUTF8.toList.map (·.toNat)
  let hs := (chunks64 (pad bytes)).foldl (fun h b => processBlock h (toWords b)) H0
  String.mk (hs.map wordHex).flatten

end SHA256

/-! `cache.GenerateCacheKey` -/

/-- Lexicographic comparison of character lists; on UTF-8 data this is the
same order as Go's byte-wise string comparison. -/
def charListLe : List Char → List Char → Bool
  | [], _ => true
  | _ :: _, [] => false
  | a :: as, b :: bs =>
    if a < b then true else if b < a then false else charListLe as bs

/-- Boolean ascending string comparison (the order `sort.Strings` uses). -/
def strLeb (a b : String) : Bool := charListLe a.data b.data

/-- Ascending insertion into a sorted list (helper of `sortStrings`). -/
def insertSorted (s : String) : List String → List String
  | [] => [s]
  | x :: xs => if strLeb s x then s :: x :: xs else x :: insertSorted s xs

/-- `sort.Strings`: ascending lexicographic sort. The sorted rearrangement
of a list of strings is unique, so this structural insertion sort produces
exactly the list Go's sort does. -/
def sortStrings (l : List String) : List String := l.foldr insertSorted []

/-- The query-parameter component of the cache key: each key-relevant
parameter present with a non-empty first value contributes `name=value`;
components are sorted and joined with `&`. `none` when the rule lists no
key-relevant query parameters or none contribute. -/
def cacheKeyQueryComponent (query : Values) (c : EndpointCacheConfig) :
    Option String :=
  if 0 < c.cacheKeyQueryParams.length then
    let queryParts := c.cacheKeyQueryParams.filterMap fun param =>
      let val := valuesGetFirst query param
      if val == "" then none else some (param ++ "=" ++ val)
    let sorted := sortStrings queryParts
    if 0 < sorted.length then some (String.intercalate "&" sorted) else none
  else none

/-- The header component of the cache key, joined with `|`. -/
def cacheKeyHeaderComponent (headers : Values) (c : EndpointCacheConfig) :
    Option String :=
  if 0 < c.cacheKeyHeaders.length then
    let headerParts := c.cacheKeyHeaders.filterMap fun header =>
      let val := valuesGetFirst headers header
      if val == "" then none else some (header ++ "=" ++ val)
    let sorted := sortStrings headerParts
    if 0 < sorted.length then some (String.intercalate "|" sorted) else none
  else none

/-- The digest input of `cache.GenerateCacheKey`: method, path, then the
optional query and header components, joined with `:`. -/
def GenerateCacheKeyString (method path : String) (query headers : Values)
    (endpointConfig : Option EndpointCacheConfig) : String :=
  let keyParts : List String := [method, path]
  let keyParts :=
    match endpointConfig with
    | some c =>
      match cacheKeyQueryComponent query c with
      | some comp => keyParts ++ [comp]
      | none => keyParts
    | none => keyParts
  let keyParts :=
    match endpointConfig with
    | some c =>
      match cacheKeyHeaderComponent headers c with
      | some comp => keyParts ++ [comp]
      | none => keyParts
    | none => keyParts
  String.intercalate ":" keyParts

/-- `cache.GenerateCacheKey`: the `cache:`-prefixed hex SHA-256 of the digest
input. -/
def GenerateCacheKey (method path : String) (query headers : Values)
    (endpointConfig : Option EndpointCacheConfig) : String :=
  "cache:" ++ SHA256.sha256hex
    (GenerateCacheKeyString method path query headers endpointConfig)

/-! `proxy.forwardWithRetry` -/

/-- `config.RetryConfig`. Backoff durations (`InitialBackoff`, `MaxBackoff`,
`BackoffMultiplier`) only determine how long each sleep lasts (Go float64
arithmetic); the embedding records sleeps as events and does not model their
durations, which no claim consults. -/
structure RetryConfig where
  enabled : Bool
  maxAttempts : Int
  retryableStatusCodes : List Int

/-- An upstream HTTP response as the proxy sees it (status, headers, body). -/
structure HttpResponse where
  statusCode : Int
  headers : Values
  body : String
deriving DecidableEq, Repr

/-- The outcome of one `httpClient.Do` call: a transport-level error or a
response. A request issued under a cancelled context fails with a transport
error (`context canceled`). -/
inductive AttemptOutcome where
  | failure (err : String)
  | response (r : HttpResponse)
deriving DecidableEq, Repr

/-- `proxy.isRetryableStatus`: retry disabled means nothing is retryable;
otherwise membership in the configured retryable set. -/
def isRetryableStatus (cfg : RetryConfig) (statusCode : Int) : Bool :=
  if !cfg.enabled then false
  else cfg.retryableStatusCodes.contains statusCode

/-- An observable event of the retry loop: an upstream attempt with its
1-based attempt number, or a backoff sleep (`time.Sleep(backoff)`). -/
inductive ForwardEvent where
  | attemptMade (n : Int)
  | sleep
deriving DecidableEq, Repr

/-- The value `forwardWithRetry` returns: a response, or an error. The
`failure` payload is the wrapped `lastErr` (`none` models wrapping a nil
error, which happens only when the loop body never ran). -/
inductive ForwardResult where
  | success (r : HttpResponse)
  | failure (lastErr : Option String)
deriving DecidableEq, Repr

/-- The `for attempt := 1; attempt <= maxAttempts; attempt++` loop of
`forwardWithRetry`, with the iteration count reindexed structurally:
`rem = maxAttempts - attempt + 1` is the number of permitted attempts still
ahead (so the loop guard `attempt <= maxAttempts` is `rem ≥ 1` and the retry
guard `attempt < maxAttempts` is `rem ≥ 2`). `upstream` gives the outcome of
the `httpClient.Do` call of each attempt number. Returns the function result
and the trace of attempt/sleep events. -/
def forwardLoop (cfg : RetryConfig) (upstream : Int → AttemptOutcome) :
    Int → Option String → Nat → ForwardResult × List ForwardEvent
  | _, lastErr, 0 => (.failure lastErr, [])
  | attempt, lastErr, rem + 1 =>
    match upstream attempt with
    | .failure e =>
      if 0 < rem then
        let next := forwardLoop cfg upstream (attempt + 1) (some e) rem
        (next.1, .attemptMade attempt :: .sleep :: next.2)
      else
        (.failure (some e), [.attemptMade attempt])
    | .response r =>
      if isRetryableStatus cfg r.statusCode && 0 < rem then
        let next := forwardLoop cfg upstream (attempt + 1) lastErr rem
        (next.1, .attemptMade attempt :: .sleep :: next.2)
      else
        (.success r, [.attemptMade attempt])

/-- `proxy.forwardWithRetry`: one attempt when retry is disabled, otherwise up
to `MaxAttempts` attempts; a final retryable response is returned as-is; a
final transport error is wrapped; a `MaxAttempts < 1` budget makes the loop
body unreachable and wraps a nil error. -/
def forwardWithRetry (cfg : RetryConfig) (upstream : Int → AttemptOutcome) :
    ForwardResult × List ForwardEvent :=
  let maxAttempts : Int := if cfg.enabled then cfg.maxAttempts else 1
  forwardLoop cfg upstream 1 none maxAttempts.toNat

/-- Number of upstream attempts recorded in a trace. -/
def numAttempts (evs : List ForwardEvent) : Nat :=
  evs.countP fun e => match e with
    | .attemptMade _ => true
    | _ => false

/-- Number of backoff sleeps recorded in a trace. -/
def numSleeps (evs : List ForwardEvent) : Nat :=
  evs.countP fun e => match e with
    | .sleep => true
    | _ => false

/-! `proxy` response assembly: headers, `http.Error`, `forwardAndCache`,
`serveCachedResponse` and the GET path of `ServeHTTP`. -/

/-- `http.Header.Add`: appends a value to the (canonical) key. -/
def headerAdd (hs : Values) (k v : String) : Values :=
  match hs with
  | [] => [(k, [v])]
  | (k', vs) :: rest =>
    if k' == k then (k', vs ++ [v]) :: rest
    else (k', vs) :: headerAdd rest k v

/-- `http.Header.Set`: replaces the values of the (canonical) key. -/
def headerSet (hs : Values) (k v : String) : Values :=
  match hs with
  | [] => [(k, [v])]
  | (k', vs) :: rest =>
    if k' == k then (k', [v]) :: rest
    else (k', vs) :: headerSet rest k v

/-- Header lookup (map indexing). -/
def headerGet (hs : Values) (k : String) : Option (List String) :=
  valuesGet hs k

/-- The `for key, values := range src { for _, value := range values {
w.Header().Add(key, value) } }` copy loops. -/
def copyHeaders (src : Values) : Values :=
  src.foldl (fun acc p => p.2.foldl (fun a v => headerAdd a p.1 v) acc) []

/-- The response the client receives: status, headers, body. -/
structure ClientResponse where
  status : Int
  headers : Values
  body : String
deriving DecidableEq, Repr

/-- `http.Error(w, msg, code)`: plain-text error response with a trailing
newline; it never carries the proxy's cache headers. -/
def httpError (msg : String) (code : Int) : ClientResponse :=
  { status := code
    headers := [("Content-Type", ["text/plain; charset=utf-8"]),
                ("X-Content-Type-Options", ["nosniff"])]
    body := msg ++ "\n" }

/-- `cache.CachedResponse`: the unit stored in the external store. The
storage timestamp (`time.Time`) is carried as an abstract instant. -/
structure CachedResponse where
  statusCode : Int
  headers : Values
  body : String
  cachedAt : Int
deriving DecidableEq, Repr

/-- A `cache.Set` call issued by the proxy: key, entry and TTL. -/
structure StoreWrite where
  key : String
  entry : CachedResponse
  ttl : Int
deriving DecidableEq, Repr

/-- `proxy.getTTL`: the matched rule's TTL when positive, else the
process-wide default. -/
def getTTL (endpointConfig : Option EndpointCacheConfig) (defaultTTL : Int) :
    Int :=
  match endpointConfig with
  | some c => if 0 < c.ttl then c.ttl else defaultTTL
  | none => defaultTTL

/-- `proxy.forwardAndCache` (the cache-miss path): forwards with retry, maps
a forwarding error to a synthetic 502 and a body-read failure to a synthetic
500, issues a store write exactly for 2xx responses, and assembles the
upstream response with `X-Cache: MISS`. `bodyReadOk` models whether
`io.ReadAll(resp.Body)` succeeds. Returns the client response and the store
write issued, if any (a failing `cache.Set` is logged and changes nothing
observable, so the write is recorded as issued). -/
def forwardAndCache (cfg : RetryConfig) (upstream : Int → AttemptOutcome)
    (bodyReadOk : Bool) (now : Int) (cacheKey : String)
    (endpointConfig : Option EndpointCacheConfig) (defaultTTL : Int) :
    ClientResponse × Option StoreWrite :=
  match (forwardWithRetry cfg upstream).1 with
  | .failure _ => (httpError "upstream service unavailable" 502, none)
  | .success resp =>
    if !bodyReadOk then
      (httpError "failed to read upstream response" 500, none)
    else
      let write? : Option StoreWrite :=
        if 200 ≤ resp.statusCode && resp.statusCode < 300 then
          some { key := cacheKey
                 entry := { statusCode := resp.statusCode
                            headers := resp.headers
                            body := resp.body
                            cachedAt := now }
                 ttl := getTTL endpointConfig defaultTTL }
        else none
      let hs := headerSet (copyHeaders resp.headers) "X-Cache" "MISS"
      ({ status := resp.statusCode, headers := hs, body := resp.body }, write?)

/-- `proxy.serveCachedResponse`: copies the stored headers, sets
`X-Cache: HIT` and `X-Cache-Time` (the storage time rendered by
`time.Time.Format(time.RFC3339)`, modelled by the `fmtTime` parameter), and
replays status and body. -/
def serveCachedResponse (fmtTime : Int → String) (cached : CachedResponse) :
    ClientResponse :=
  let hs := copyHeaders cached.headers
  let hs := headerSet hs "X-Cache" "HIT"
  let hs := headerSet hs "X-Cache-Time" (fmtTime cached.cachedAt)
  { status := cached.statusCode, headers := hs, body := cached.body }

/-- What the external store produces for a `cache.Get`: a `redis.Nil` miss,
another store error, a stored entry whose JSON fails to unmarshal, or a
well-formed entry. -/
inductive CacheGetResult where
  | missNil
  | errOther (e : String)
  | malformed (e : String)
  | hit (c : CachedResponse)

/-- `cache.Get`: `(nil, nil)` on `redis.Nil`; `(nil, err)` on store or
unmarshal failure; `(entry, nil)` on success. -/
def cacheGet : CacheGetResult → Option CachedResponse × Option String
  | .missNil => (none, none)
  | .errOther e => (none, some ("failed to get cache: " ++ e))
  | .malformed e => (none, some ("failed to unmarshal cached response: " ++ e))
  | .hit c => (some c, none)

/-- The GET path of `proxy.ServeHTTP`: resolve the cache rule, derive the
key, consult the store (an error is only logged — `cached` stays nil and the
request proceeds as a miss), serve a hit from the store, otherwise forward
and cache. -/
def ServeHTTPGet (endpoints : List EndpointCacheConfig) (defaultTTL : Int)
    (cfg : RetryConfig) (upstream : Int → AttemptOutcome)
    (fmtTime : Int → String) (path : String) (query headers : Values)
    (storeResult : CacheGetResult) (bodyReadOk : Bool) (now : Int) :
    ClientResponse × Option StoreWrite :=
  let endpointConfig := GetEndpointCacheConfig endpoints path "GET" query
  let cacheKey := GenerateCacheKey "GET" path query headers endpointConfig
  match (cacheGet storeResult).1 with
  | some c => (serveCachedResponse fmtTime c, none)
  | none =>
    forwardAndCache cfg upstream bodyReadOk now cacheKey endpointConfig
      defaultTTL

/-! Helper lemmas -/

/-- The scan of `GetEndpointCacheConfigMatch` computes: the first eligible
discriminating rule whose constraints all hold; failing that, the carried
fallback; failing that, the first eligible non-discriminating rule. -/
theorem GetMatchAux_fst_eq (path method : String) (qp : Values) :
    ∀ (l : List EndpointCacheConfig) (i0 : Nat) (fb : Option (Nat × PathMatch)),
      (GetMatchAux path method qp i0 l fb).1 =
        match specFindIdx (specDiscWin path method qp) i0 l, fb with
        | some j, _ => some j
        | none, some pr => some pr.1
        | none, none => specFindIdx (specFallback path method) i0 l := by
  intro l
  induction l with
  | nil =>
    intro i0 fb
    rcases fb with _ | ⟨i, pm⟩
    · simp [GetMatchAux, specFindIdx]
    · cases pm <;> simp [GetMatchAux, specFindIdx]
  | cons ep rest ih =>
    intro i0 fb
    cases hm : ep.methods.contains method with
    | false =>
      have hdw : specDiscWin path method qp ep = false := by
        unfold specDiscWin specEligible
        rw [hm]
        simp
      have hfb : specFallback path method ep = false := by
        unfold specFallback specEligible
        rw [hm]
        simp
      simp only [GetMatchAux, hm, Bool.not_false, eq_self_iff_true, if_true]
      rw [ih]
      simp only [specFindIdx, hdw, hfb, Bool.false_eq_true, if_false]
    | true =>
      cases hp : pathMatchOf ep path with
      | none =>
        have hdw : specDiscWin path method qp ep = false := by
          unfold specDiscWin specEligible
          rw [hp]
          simp
        have hfb : specFallback path method ep = false := by
          unfold specFallback specEligible
          rw [hp]
          simp
        simp only [GetMatchAux, hm, Bool.not_true, Bool.false_eq_true,
          if_false, hp]
        rw [ih]
        simp only [specFindIdx, hdw, hfb, Bool.false_eq_true, if_false]
      | some pmt =>
        cases hq : hasQueryParamMatching ep with
        | false =>
          have hdw : specDiscWin path method qp ep = false := by
            unfold specDiscWin
            rw [hq]
            simp
          have hfb : specFallback path method ep = true := by
            unfold specFallback specEligible
            rw [hm, hp, hq]
            simp
          simp only [GetMatchAux, hm, Bool.not_true, Bool.false_eq_true,
            if_false, hp, hq, Bool.not_false, eq_self_iff_true, if_true]
          rw [ih]
          simp only [specFindIdx, hdw, hfb, Bool.false_eq_true, if_false,
            eq_self_iff_true, if_true]
          rcases fb with _ | ⟨i, pm⟩ <;>
            cases hrest : specFindIdx (specDiscWin path method qp) (i0 + 1)
              rest <;> simp [Option.orElse]
        | true =>
          cases ha : allParamsMatch ep qp with
          | false =>
            have hdw : specDiscWin path method qp ep = false := by
              unfold specDiscWin
              rw [ha]
              simp
            have hfb : specFallback path method ep = false := by
              unfold specFallback
              rw [hq]
              simp
            simp only [GetMatchAux, hm, Bool.not_true, Bool.false_eq_true,
              if_false, hp, hq, Bool.not_false, ha]
            rw [ih]
            simp only [specFindIdx, hdw, hfb, Bool.false_eq_true, if_false]
          | true =>
            have hdw : specDiscWin path method qp ep = true := by
              unfold specDiscWin specEligible
              rw [hm, hp, hq, ha]
              simp
            simp only [GetMatchAux, hm, Bool.not_true, Bool.false_eq_true,
              if_false, hp, hq, Bool.not_false, ha, eq_self_iff_true,
              if_true, specFindIdx, hdw]

/-- A `queryParam`-provenance result names a rule whose query-parameter
constraints all held. -/
theorem GetMatchAux_queryParam_win (path method : String) (qp : Values) :
    ∀ (l : List EndpointCacheConfig) (i0 : Nat)
      (fb : Option (Nat × PathMatch)) (i : Nat),
      GetMatchAux path method qp i0 l fb = (some i, .queryParam) →
      ∃ ep, i0 ≤ i ∧ l.get? (i - i0) = some ep ∧
        hasQueryParamMatching ep = true ∧ allParamsMatch ep qp = true := by
  intro l
  induction l with
  | nil =>
    intro i0 fb i h
    rcases fb with _ | ⟨j, pm⟩
    · simp [GetMatchAux] at h
    · cases pm <;> simp [GetMatchAux] at h
  | cons ep rest ih =>
    intro i0 fb i h
    have step : ∀ (fb' : Option (Nat × PathMatch)),
        GetMatchAux path method qp (i0 + 1) rest fb' = (some i, .queryParam) →
        ∃ ep', i0 ≤ i ∧ (ep :: rest).get? (i - i0) = some ep' ∧
          hasQueryParamMatching ep' = true ∧ allParamsMatch ep' qp = true := by
      intro fb' h'
      obtain ⟨ep', hle, hget, hq, ha⟩ := ih (i0 + 1) fb' i h'
      refine ⟨ep', by omega, ?_, hq, ha⟩
      have : i - i0 = (i - (i0 + 1)) + 1 := by omega
      rw [this]
      simpa using hget
    cases hm : ep.methods.contains method with
    | false =>
      simp only [GetMatchAux, hm, Bool.not_false, eq_self_iff_true,
        if_true] at h
      exact step _ h
    | true =>
      cases hp : pathMatchOf ep path with
      | none =>
        simp only [GetMatchAux, hm, Bool.not_true, Bool.false_eq_true,
          if_false, hp] at h
        exact step _ h
      | some pmt =>
        cases hq : hasQueryParamMatching ep with
        | false =>
          simp only [GetMatchAux, hm, Bool.not_true, Bool.false_eq_true,
            if_false, hp, hq, Bool.not_false, eq_self_iff_true,
            if_true] at h
          exact step _ h
        | true =>
          cases ha : allParamsMatch ep qp with
          | false =>
            simp only [GetMatchAux, hm, Bool.not_true, Bool.false_eq_true,
              if_false, hp, hq, Bool.not_false, ha] at h
            exact step _ h
          | true =>
            simp only [GetMatchAux, hm, Bool.not_true, Bool.false_eq_true,
              if_false, hp, hq, Bool.not_false, ha, eq_self_iff_true,
              if_true] at h
            have hi : i0 = i := by
              have := congrArg Prod.fst h
              simpa using this
            subst hi
            exact ⟨ep, le_refl _, by simp, hq, ha⟩

/-- The rate-limit scan is a first-match search over exact-or-pattern hits. -/
theorem GetRateLimitAux_eq (path : String) :
    ∀ (l : List EndpointRateLimitConfig) (i0 : Nat),
      GetRateLimitAux path i0 l =
        specFindIdx (fun ep => rlExactHit ep path || rlRegexHit ep path)
          i0 l := by
  intro l
  induction l with
  | nil => intro i0; simp [GetRateLimitAux, specFindIdx]
  | cons ep rest ih =>
    intro i0
    cases he : rlExactHit ep path with
    | true => simp [GetRateLimitAux, he, specFindIdx]
    | false =>
      cases hr : rlRegexHit ep path with
      | true => simp [GetRateLimitAux, he, hr, specFindIdx]
      | false => simp [GetRateLimitAux, he, hr, specFindIdx, ih]

/-! The three-rule `/query` example of spec §8. -/

/-- `{path:"/query", param "function" in [EOD,WEEKLY,MONTHLY] → 24h}`. -/
def exampleRuleEOD : EndpointCacheConfig :=
  { path := "/query", pathRegex := "", methods := ["GET"], ttl := 24 * hour
    cacheKeyHeaders := [], cacheKeyQueryParams := []
    matchQueryParams := [("function", ["EOD", "WEEKLY", "MONTHLY"])]
    matchQueryParamsRegex := [], compiledRegex := none
    compiledQueryParamRegex := [] }

/-- `{path:"/query", param "function" in [INTRADAY] → 5m}`. -/
def exampleRuleIntraday : EndpointCacheConfig :=
  { path := "/query", pathRegex := "", methods := ["GET"], ttl := 5 * minute
    cacheKeyHeaders := [], cacheKeyQueryParams := []
    matchQueryParams := [("function", ["INTRADAY"])]
    matchQueryParamsRegex := [], compiledRegex := none
    compiledQueryParamRegex := [] }

/-- `{path:"/query", no discrimination → 1h}`. -/
def exampleRuleCatchAll : EndpointCacheConfig :=
  { path := "/query", pathRegex := "", methods := ["GET"], ttl := 1 * hour
    cacheKeyHeaders := [], cacheKeyQueryParams := []
    matchQueryParams := [], matchQueryParamsRegex := [], compiledRegex := none
    compiledQueryParamRegex := [] }

/-- The example rule set, catch-all declared last as in spec §8. -/
def exampleRules : List EndpointCacheConfig :=
  [exampleRuleEOD, exampleRuleIntraday, exampleRuleCatchAll]

/-- The TTL a request effectively resolves to: the matched rule's through
`proxy.getTTL`, else the process default. -/
def resolvedTTL (endpoints : List EndpointCacheConfig) (path method : String)
    (qp : Values) (defaultTTL : Int) : Int :=
  getTTL (GetEndpointCacheConfig endpoints path method qp) defaultTTL

/-- C1: cache resolution walks the rules in configured order, skipping rules
whose method set or path (exact string, else compiled pattern) does not
match; the first rule whose query-parameter constraints all hold wins
immediately; a matching undiscriminated rule is only the first-seen fallback;
with no discriminated win the first-seen fallback is returned, else no rule.
For the three-rule `/query` example: `function=EOD` yields 24h,
`function=INTRADAY` yields 5m, `function=UNKNOWN` or a missing `function`
yields 1h, and an empty rule set yields the process default TTL. -/
theorem C1_cache_resolution :
    (∀ (endpoints : List EndpointCacheConfig) (path method : String)
        (qp : Values),
      (GetEndpointCacheConfigMatch endpoints path method qp).1 =
        specCacheResolve endpoints path method qp) ∧
    resolvedTTL exampleRules "/query" "GET" [("function", ["EOD"])]
      (30 * minute) = 24 * hour ∧
    resolvedTTL exampleRules "/query" "GET" [("function", ["INTRADAY"])]
      (30 * minute) = 5 * minute ∧
    resolvedTTL exampleRules "/query" "GET" [("function", ["UNKNOWN"])]
      (30 * minute) = 1 * hour ∧
    resolvedTTL exampleRules "/query" "GET" [] (30 * minute) = 1 * hour ∧
    resolvedTTL [] "/query" "GET" [("function", ["EOD"])] (30 * minute) =
      30 * minute := by
  refine ⟨?_, by decide, by decide, by decide, by decide, by decide⟩
  intro endpoints path method qp
  rw [GetEndpointCacheConfigMatch, GetMatchAux_fst_eq]
  cases h : specFindIdx (specDiscWin path method qp) 0 endpoints <;>
    simp [specCacheResolve, h]

/-- C2 counterexample: with a pattern rule declared before an exact-path
rule, both matching `/a`, resolution returns the pattern rule (index 0), not
the exact-path rule (index 1) the claim demands. -/
def rlPatternAll : EndpointRateLimitConfig :=
  { path := "", pathRegex := ".*", requestsPerSecond := 5, burst := 10
    compiledRegex := some fun _ => true }

/-- An exact-path rate-limit rule for `/a`. -/
def rlExactA : EndpointRateLimitConfig :=
  { path := "/a", pathRegex := "", requestsPerSecond := 1, burst := 2
    compiledRegex := none }

/-- The counterexample rule list for C2: pattern rule first. -/
def rlExampleRules : List EndpointRateLimitConfig := [rlPatternAll, rlExactA]

/-- C2 fails on the code: an exact-path rule exists in the list (index 1,
`rlExactHit` holds), yet resolution returns index 0, a rule that is not an
exact-path hit — the scan is a single pass in list order, so an earlier
pattern hit beats a later exact hit. -/
theorem C2_counterexample :
    GetEndpointRateLimitConfig rlExampleRules "/a" = some 0 ∧
    rlExactHit rlExactA "/a" = true ∧
    rlExactA ∈ rlExampleRules ∧
    rlExactHit rlPatternAll "/a" = false :=
  ⟨rfl, rfl, by simp [rlExampleRules], rfl⟩

/-- C2 amended: rate-limit resolution returns the first rule in configured
order that matches the request path, each rule tried by exact path equality
first and compiled pattern second; if no rule matches, no rule is returned
and the caller falls back to the global rate. -/
theorem C2_rate_limit_first_match (endpoints : List EndpointRateLimitConfig)
    (path : String) :
    GetEndpointRateLimitConfig endpoints path =
      specRateLimitResolve endpoints path := by
  rw [GetEndpointRateLimitConfig, GetRateLimitAux_eq, specRateLimitResolve]

/-- The C8 counterexample rule: a discriminated rule whose allow-list for
`function` contains the empty string. -/
def emptyValueRule : EndpointCacheConfig :=
  { path := "/q", pathRegex := "", methods := ["GET"], ttl := hour
    cacheKeyHeaders := [], cacheKeyQueryParams := []
    matchQueryParams := [("function", [""])]
    matchQueryParamsRegex := [], compiledRegex := none
    compiledQueryParamRegex := [] }

/-- C8 fails on the code: a query parameter supplied with an empty value is
compared literally, not auto-failed — `?function=` (first value `""`)
satisfies an allow-list constraint listing `""` and a pattern constraint
whose pattern matches the empty string (e.g. `.*`), and such a rule wins
with `queryParam` provenance. -/
theorem C8_counterexample :
    valuesGetFirst [("function", [""])] "function" = "" ∧
    matchQueryParamOk [("function", [""])] "function" [""] = true ∧
    matchQueryParamRegexOk [("function", [""])] "function"
      [fun _ => true] = true ∧
    GetEndpointCacheConfigMatch [emptyValueRule] "/q" "GET"
      [("function", [""])] = (some 0, .queryParam) :=
  ⟨rfl, rfl, rfl, rfl⟩

/-- C8 amended: a query parameter absent from the request (or present with
an empty value slice) always fails both allow-list and pattern constraints —
never a wildcard — and every rule that wins with `queryParam` provenance had
all of its constraints hold; an empty-string value, however, is compared
literally like any other value. -/
theorem C8_absent_param_fails :
    (∀ (qp : Values) (param : String) (allowed : List String),
      valuesGet qp param = none ∨ valuesGet qp param = some [] →
      matchQueryParamOk qp param allowed = false) ∧
    (∀ (qp : Values) (param : String) (rl : List Matcher),
      valuesGet qp param = none ∨ valuesGet qp param = some [] →
      matchQueryParamRegexOk qp param rl = false) ∧
    (∀ (endpoints : List EndpointCacheConfig) (path method : String)
        (qp : Values) (i : Nat),
      GetEndpointCacheConfigMatch endpoints path method qp =
        (some i, .queryParam) →
      ∃ ep, endpoints.get? i = some ep ∧ hasQueryParamMatching ep = true ∧
        allParamsMatch ep qp = true) := by
  refine ⟨?_, ?_, ?_⟩
  · intro qp param allowed h
    rcases h with h | h <;> simp [matchQueryParamOk, h]
  · intro qp param rl h
    rcases h with h | h <;> simp [matchQueryParamRegexOk, h]
  · intro endpoints path method qp i h
    obtain ⟨ep, _, hget, hq, ha⟩ :=
      GetMatchAux_queryParam_win path method qp endpoints 0 none i h
    exact ⟨ep, by simpa using hget, hq, ha⟩

/-- Witness for C8 amended, at concrete inputs: the empty query map fails an
allow-list and a pattern constraint, and the winning EOD rule of the
example set had its constraints hold. -/
theorem C8_absent_param_fails_witness :
    matchQueryParamOk [] "function" ["EOD"] = false ∧
    matchQueryParamRegexOk [] "function" [fun _ => true] = false ∧
    ∃ ep, exampleRules.get? 0 = some ep ∧ hasQueryParamMatching ep = true ∧
      allParamsMatch ep [("function", ["EOD"])] = true :=
  ⟨C8_absent_param_fails.1 [] "function" ["EOD"] (Or.inl rfl),
   C8_absent_param_fails.2.1 [] "function" [fun _ => true] (Or.inl rfl),
   C8_absent_param_fails.2.2 exampleRules "/query" "GET"
     [("function", ["EOD"])] 0 rfl⟩

/-! Retry-loop lemmas -/

/-- An attempt outcome that triggers a retry (when budget remains): a
transport error, or a response with a retryable status. -/
def retryishOutcome (cfg : RetryConfig) : AttemptOutcome → Prop
  | .failure _ => True
  | .response r => isRetryableStatus cfg r.statusCode = true

/-- If every attempt in the window fails at transport level, the loop runs
all its attempts and sleeps between consecutive ones, then reports the last
error. -/
theorem forwardLoop_all_failures (cfg : RetryConfig)
    (upstream : Int → AttemptOutcome) (e : Int → String) :
    ∀ (rem : Nat) (attempt : Int) (lastErr : Option String),
      (∀ k : Int, attempt ≤ k → k < attempt + rem → upstream k = .failure (e k)) →
      0 < rem →
      (forwardLoop cfg upstream attempt lastErr rem).1 =
          .failure (some (e (attempt + rem - 1))) ∧
        numAttempts (forwardLoop cfg upstream attempt lastErr rem).2 = rem ∧
        numSleeps (forwardLoop cfg upstream attempt lastErr rem).2 = rem - 1 := by
  intro rem
  induction rem with
  | zero => intro attempt lastErr _ h0; exact absurd h0 (by simp)
  | succ r ih =>
    intro attempt lastErr hall _
    have hatt : upstream attempt = .failure (e attempt) :=
      hall attempt le_rfl (by push_cast; omega)
    by_cases hr : 0 < r
    · have hrec := ih (attempt + 1) (some (e attempt))
        (fun k hk1 hk2 => hall k (by omega) (by push_cast at hk2 ⊢; omega))
        hr
      have harg : (attempt + 1) + (r : Int) - 1 =
          attempt + ((r + 1 : Nat) : Int) - 1 := by
        push_cast; ring
      rw [harg] at hrec
      simp only [forwardLoop, hatt, hr, if_true]
      refine ⟨hrec.1, ?_, ?_⟩
      · simp only [numAttempts, List.countP_cons, eq_self_iff_true,
          if_true, Bool.false_eq_true, if_false]
        have := hrec.2.1
        simp only [numAttempts] at this
        omega
      · simp only [numSleeps, List.countP_cons, eq_self_iff_true,
          if_true, Bool.false_eq_true, if_false]
        have := hrec.2.2
        simp only [numSleeps] at this
        omega
    · have hr0 : r = 0 := by omega
      subst hr0
      have harg : attempt + ((0 + 1 : Nat) : Int) - 1 = attempt := by
        push_cast; ring
      rw [harg]
      simp [forwardLoop, hatt, numAttempts, numSleeps]

/-- If every attempt in the window returns a retryable-status response, the
loop runs all its attempts (sleeping between them) and finally returns the
last response as-is. -/
theorem forwardLoop_all_retryable (cfg : RetryConfig)
    (upstream : Int → AttemptOutcome) (resp : Int → HttpResponse) :
    ∀ (rem : Nat) (attempt : Int) (lastErr : Option String),
      (∀ k : Int, attempt ≤ k → k < attempt + rem →
        upstream k = .response (resp k) ∧
          isRetryableStatus cfg (resp k).statusCode = true) →
      0 < rem →
      (forwardLoop cfg upstream attempt lastErr rem).1 =
          .success (resp (attempt + rem - 1)) ∧
        numAttempts (forwardLoop cfg upstream attempt lastErr rem).2 = rem ∧
        numSleeps (forwardLoop cfg upstream attempt lastErr rem).2 = rem - 1 := by
  intro rem
  induction rem with
  | zero => intro attempt lastErr _ h0; exact absurd h0 (by simp)
  | succ r ih =>
    intro attempt lastErr hall _
    obtain ⟨hatt, hretry⟩ := hall attempt le_rfl (by push_cast; omega)
    by_cases hr : 0 < r
    · have hrec := ih (attempt + 1) lastErr
        (fun k hk1 hk2 => hall k (by omega) (by push_cast at hk2 ⊢; omega))
        hr
      have harg : (attempt + 1) + (r : Int) - 1 =
          attempt + ((r + 1 : Nat) : Int) - 1 := by
        push_cast; ring
      rw [harg] at hrec
      have hcond : (isRetryableStatus cfg (resp attempt).statusCode &&
          decide (0 < r)) = true := by
        rw [hretry]
        simp [hr]
      simp only [forwardLoop, hatt, hcond, if_true, eq_self_iff_true]
      refine ⟨hrec.1, ?_, ?_⟩
      · simp only [numAttempts, List.countP_cons, eq_self_iff_true,
          if_true, Bool.false_eq_true, if_false]
        have := hrec.2.1
        simp only [numAttempts] at this
        omega
      · simp only [numSleeps, List.countP_cons, eq_self_iff_true,
          if_true, Bool.false_eq_true, if_false]
        have := hrec.2.2
        simp only [numSleeps] at this
        omega
    · have hr0 : r = 0 := by omega
      subst hr0
      have harg : attempt + ((0 + 1 : Nat) : Int) - 1 = attempt := by
        push_cast; ring
      rw [harg]
      simp [forwardLoop, hatt, numAttempts, numSleeps]

/-- After a window of retry-triggering outcomes, the first non-retryable
response is returned at once: the loop makes exactly `d + 1` attempts. -/
theorem forwardLoop_stops_nonretryable (cfg : RetryConfig)
    (upstream : Int → AttemptOutcome) (r : HttpResponse) :
    ∀ (d rem : Nat) (attempt : Int) (lastErr : Option String),
      d < rem →
      (∀ i : Int, attempt ≤ i → i < attempt + d →
        retryishOutcome cfg (upstream i)) →
      upstream (attempt + d) = .response r →
      isRetryableStatus cfg r.statusCode = false →
      (forwardLoop cfg upstream attempt lastErr rem).1 = .success r ∧
        numAttempts (forwardLoop cfg upstream attempt lastErr rem).2 =
          d + 1 := by
  intro d
  induction d with
  | zero =>
    intro rem attempt lastErr hd _ hresp hnr
    cases rem with
    | zero => exact absurd hd (by simp)
    | succ rem' =>
      have hresp' : upstream attempt = .response r := by
        simpa using hresp
      simp [forwardLoop, hresp', hnr, numAttempts]
  | succ d' ih =>
    intro rem attempt lastErr hd hwin hresp hnr
    cases rem with
    | zero => exact absurd hd (by simp)
    | succ rem' =>
      have hpos : (0 : Nat) < rem' := by omega
      have hwin' : ∀ i : Int, attempt + 1 ≤ i → i < (attempt + 1) + d' →
          retryishOutcome cfg (upstream i) := by
        intro i h1 h2
        exact hwin i (by omega) (by push_cast at h2 ⊢; omega)
      have hresp' : upstream ((attempt + 1) + d') = .response r := by
        have : (attempt + 1) + (d' : Int) = attempt + ((d' + 1 : Nat) : Int) := by
          push_cast; ring
        rw [this]
        exact hresp
      have hfirst := hwin attempt le_rfl (by push_cast; omega)
      cases hout : upstream attempt with
      | failure e =>
        have hrec := ih rem' (attempt + 1) (some e) (by omega) hwin' hresp'
          hnr
        simp only [forwardLoop, hout, hpos, if_true, eq_self_iff_true]
        refine ⟨hrec.1, ?_⟩
        simp only [numAttempts, List.countP_cons, eq_self_iff_true,
          if_true, Bool.false_eq_true, if_false]
        have := hrec.2
        simp only [numAttempts] at this
        omega
      | response rr =>
        have hrec := ih rem' (attempt + 1) lastErr (by omega) hwin' hresp'
          hnr
        have hrr : isRetryableStatus cfg rr.statusCode = true := by
          have := hfirst
          rw [hout] at this
          exact this
        have hcond : (isRetryableStatus cfg rr.statusCode &&
            decide (0 < rem')) = true := by
          rw [hrr]
          simp [hpos]
        simp only [forwardLoop, hout, hcond, if_true, eq_self_iff_true]
        refine ⟨hrec.1, ?_⟩
        simp only [numAttempts, List.countP_cons, eq_self_iff_true,
          if_true, Bool.false_eq_true, if_false]
        have := hrec.2
        simp only [numAttempts] at this
        omega

/-- C4: a response whose status is in the configured retryable set is
retried up to `max_attempts`, and if the final attempt still returns a
retryable status that last upstream response is returned to the client
as-is (never replaced by a synthetic 502); a response whose status is
outside the retryable set is returned at once and never retried. -/
theorem C4_retry_semantics :
    (∀ (cfg : RetryConfig) (upstream : Int → AttemptOutcome)
        (resp : Int → HttpResponse),
      cfg.enabled = true → 1 ≤ cfg.maxAttempts →
      (∀ k : Int, 1 ≤ k → k ≤ cfg.maxAttempts →
        upstream k = .response (resp k) ∧
          isRetryableStatus cfg (resp k).statusCode = true) →
      (forwardWithRetry cfg upstream).1 = .success (resp cfg.maxAttempts) ∧
        numAttempts (forwardWithRetry cfg upstream).2 =
          cfg.maxAttempts.toNat) ∧
    (∀ (cfg : RetryConfig) (upstream : Int → AttemptOutcome)
        (r : HttpResponse) (k : Int),
      1 ≤ k → k ≤ (if cfg.enabled then cfg.maxAttempts else 1) →
      (∀ i : Int, 1 ≤ i → i < k → retryishOutcome cfg (upstream i)) →
      upstream k = .response r →
      isRetryableStatus cfg r.statusCode = false →
      (forwardWithRetry cfg upstream).1 = .success r ∧
        numAttempts (forwardWithRetry cfg upstream).2 = k.toNat) := by
  constructor
  · intro cfg upstream resp hen hge hall
    have hpos : 0 < cfg.maxAttempts.toNat := by omega
    have h := forwardLoop_all_retryable cfg upstream resp
      cfg.maxAttempts.toNat 1 none
      (fun k hk1 hk2 => hall k hk1 (by omega)) hpos
    have harg : (1 : Int) + (cfg.maxAttempts.toNat : Int) - 1 =
        cfg.maxAttempts := by omega
    rw [harg] at h
    have hfw : forwardWithRetry cfg upstream =
        forwardLoop cfg upstream 1 none cfg.maxAttempts.toNat := by
      simp [forwardWithRetry, hen]
    rw [hfw]
    exact ⟨h.1, h.2.1⟩
  · intro cfg upstream r k hk1 hk2 hwin hresp hnr
    have harg : (1 : Int) + ((k - 1).toNat : Int) = k := by omega
    have h := forwardLoop_stops_nonretryable cfg upstream r
      (k - 1).toNat (if cfg.enabled then cfg.maxAttempts else 1).toNat 1 none
      (by omega)
      (fun i hi1 hi2 => hwin i hi1 (by omega))
      (by rw [harg]; exact hresp)
      hnr
    have hfw : forwardWithRetry cfg upstream =
        forwardLoop cfg upstream 1 none
          (if cfg.enabled then cfg.maxAttempts else 1).toNat := rfl
    rw [hfw]
    exact ⟨h.1, by have := h.2; omega⟩

/-- Retry policy used by witnesses: enabled, three attempts, 500 retryable. -/
def retryCfg3 : RetryConfig :=
  { enabled := true, maxAttempts := 3, retryableStatusCodes := [500] }

/-- A retryable-status upstream response. -/
def resp500 : HttpResponse :=
  { statusCode := 500, headers := [], body := "upstream overloaded" }

/-- A non-retryable success response. -/
def resp200 : HttpResponse :=
  { statusCode := 200, headers := [("Content-Type", ["application/json"])]
    body := "{}" }

/-- An upstream returning 500 on every attempt. -/
def upstreamAll500 : Int → AttemptOutcome := fun _ => .response resp500

/-- An upstream returning 500 on the first attempt, then 200. -/
def upstream500then200 : Int → AttemptOutcome := fun k =>
  if k ≤ 1 then .response resp500 else .response resp200

/-- Witness for C4: three retryable 500s make three attempts and pass the
last 500 through; a 500 then a 200 stops after two attempts with the 200. -/
theorem C4_retry_semantics_witness :
    ((forwardWithRetry retryCfg3 upstreamAll500).1 = .success resp500 ∧
      numAttempts (forwardWithRetry retryCfg3 upstreamAll500).2 = 3) ∧
    ((forwardWithRetry retryCfg3 upstream500then200).1 = .success resp200 ∧
      numAttempts (forwardWithRetry retryCfg3 upstream500then200).2 = 2) := by
  constructor
  · have h := C4_retry_semantics.1 retryCfg3 upstreamAll500
      (fun _ => resp500) rfl (by decide) (fun k hk1 hk2 => ⟨rfl, rfl⟩)
    exact ⟨h.1, h.2.trans (by decide)⟩
  · have h := C4_retry_semantics.2 retryCfg3 upstream500then200 resp200 2
      (by decide) (by decide)
      (fun i hi1 hi2 => by
        have hi : i = 1 := by omega
        subst hi
        exact rfl)
      rfl rfl
    exact ⟨h.1, h.2.trans (by decide)⟩

/-- An upstream whose every call fails immediately, as all calls issued
under a cancelled request context do (`context canceled`). -/
def cancelUpstream : Int → AttemptOutcome := fun _ => .failure "context canceled"

/-- C9 fails on the code: the backoff wait is a plain `time.Sleep`, not a
cancellable wait. With a cancelled context every upstream call fails
immediately, yet the loop (here with `max_attempts = 3`) still performs all
three attempts and sleeps the full backoff twice before returning — it runs
to completion instead of aborting promptly. -/
theorem C9_counterexample :
    (forwardWithRetry retryCfg3 cancelUpstream).1 =
      .failure (some "context canceled") ∧
    numAttempts (forwardWithRetry retryCfg3 cancelUpstream).2 = 3 ∧
    numSleeps (forwardWithRetry retryCfg3 cancelUpstream).2 = 2 :=
  ⟨rfl, by decide, by decide⟩

/-- C9 amended: the backoff wait is an unconditional sleep. Cancellation
reaches the upstream call (the request carries the context), so each
in-flight attempt fails promptly, but the retry loop itself keeps sleeping
and re-attempting: when every upstream call fails, all `max_attempts`
attempts are made with a backoff sleep between each before the error is
reported. -/
theorem C9_uncancellable_backoff (cfg : RetryConfig)
    (upstream : Int → AttemptOutcome) (e : Int → String)
    (hen : cfg.enabled = true) (hge : 1 ≤ cfg.maxAttempts)
    (hfail : ∀ k : Int, upstream k = .failure (e k)) :
    (forwardWithRetry cfg upstream).1 = .failure (some (e cfg.maxAttempts)) ∧
    numAttempts (forwardWithRetry cfg upstream).2 = cfg.maxAttempts.toNat ∧
    numSleeps (forwardWithRetry cfg upstream).2 =
      cfg.maxAttempts.toNat - 1 := by
  have hpos : 0 < cfg.maxAttempts.toNat := by omega
  have h := forwardLoop_all_failures cfg upstream e
    cfg.maxAttempts.toNat 1 none (fun k hk1 hk2 => hfail k) hpos
  have harg : (1 : Int) + (cfg.maxAttempts.toNat : Int) - 1 =
      cfg.maxAttempts := by omega
  rw [harg] at h
  have hfw : forwardWithRetry cfg upstream =
      forwardLoop cfg upstream 1 none cfg.maxAttempts.toNat := by
    simp [forwardWithRetry, hen]
  rw [hfw]
  exact h

/-- Witness for C9 amended, at the three-attempt policy and an
always-cancelled upstream. -/
theorem C9_uncancellable_backoff_witness :
    (forwardWithRetry retryCfg3 cancelUpstream).1 =
      .failure (some "context canceled") ∧
    numAttempts (forwardWithRetry retryCfg3 cancelUpstream).2 =
      (3 : Int).toNat ∧
    numSleeps (forwardWithRetry retryCfg3 cancelUpstream).2 =
      (3 : Int).toNat - 1 :=
  C9_uncancellable_backoff retryCfg3 cancelUpstream
    (fun _ => "context canceled") rfl (by decide) (fun _ => rfl)

/-- C10: with retry enabled and `max_attempts < 1`, the loop body never
runs — zero upstream attempts are made, the engine returns an error wrapping
a nil last error, and the client receives the synthetic 502 response. -/
theorem C10_zero_attempts_502 (cfg : RetryConfig)
    (upstream : Int → AttemptOutcome)
    (hen : cfg.enabled = true) (hlt : cfg.maxAttempts < 1) :
    forwardWithRetry cfg upstream = (.failure none, []) ∧
    numAttempts (forwardWithRetry cfg upstream).2 = 0 ∧
    (∀ (bodyReadOk : Bool) (now : Int) (cacheKey : String)
        (endpointConfig : Option EndpointCacheConfig) (defaultTTL : Int),
      forwardAndCache cfg upstream bodyReadOk now cacheKey endpointConfig
        defaultTTL = (httpError "upstream service unavailable" 502, none)) ∧
    (httpError "upstream service unavailable" 502).status = 502 := by
  have h0 : (if cfg.enabled then cfg.maxAttempts else 1).toNat = 0 := by
    rw [hen]
    simp only [if_true, eq_self_iff_true]
    omega
  have h1 : forwardWithRetry cfg upstream = (.failure none, []) := by
    have : forwardWithRetry cfg upstream =
        forwardLoop cfg upstream 1 none
          (if cfg.enabled then cfg.maxAttempts else 1).toNat := rfl
    rw [this, h0]
    rfl
  refine ⟨h1, by rw [h1]; rfl, ?_, rfl⟩
  intro bodyReadOk now cacheKey epc dttl
  have h2 : (forwardWithRetry cfg upstream).1 = .failure none := by
    rw [h1]
  simp [forwardAndCache, h2]

/-- Retry policy with an empty attempt budget. -/
def retryCfg0 : RetryConfig :=
  { enabled := true, maxAttempts := 0, retryableStatusCodes := [500] }

/-- Witness for C10 at a concrete zero-budget policy. -/
theorem C10_zero_attempts_502_witness :
    forwardWithRetry retryCfg0 cancelUpstream = (.failure none, []) ∧
    forwardAndCache retryCfg0 cancelUpstream true 0 "k" none second =
      (httpError "upstream service unavailable" 502, none) :=
  ⟨(C10_zero_attempts_502 retryCfg0 cancelUpstream rfl (by decide)).1,
   (C10_zero_attempts_502 retryCfg0 cancelUpstream rfl
      (by decide)).2.2.1 true 0 "k" none second⟩

/-! Header-table lemmas -/

/-- Setting a key makes it present with exactly that value. -/
theorem headerGet_headerSet_self (hs : Values) (k v : String) :
    headerGet (headerSet hs k v) k = some [v] := by
  induction hs with
  | nil => simp [headerGet, headerSet, valuesGet]
  | cons p rest ih =>
    obtain ⟨k', vs⟩ := p
    cases h : (k' == k) with
    | true =>
      simp [headerGet, headerSet, valuesGet, h]
    | false =>
      simp only [headerSet, h, Bool.false_eq_true, if_false]
      simpa [headerGet, valuesGet, h] using ih

/-- Setting one key leaves every other key's lookup unchanged. -/
theorem headerGet_headerSet_ne (hs : Values) (k v k₂ : String)
    (hne : k₂ ≠ k) :
    headerGet (headerSet hs k v) k₂ = headerGet hs k₂ := by
  have hbeq : (k == k₂) = false := by
    simp [hne]
    intro h
    exact absurd h.symm hne
  induction hs with
  | nil => simp [headerGet, headerSet, valuesGet, hbeq]
  | cons p rest ih =>
    obtain ⟨k', vs⟩ := p
    cases h : (k' == k) with
    | true =>
      have hk' : k' = k := by simpa using h
      subst hk'
      simp [headerGet, headerSet, valuesGet, h, hbeq]
    | false =>
      simp only [headerSet, h, Bool.false_eq_true, if_false]
      cases h2 : (k' == k₂) with
      | true => simp [headerGet, valuesGet, h2]
      | false =>
        simp only [headerGet, valuesGet, List.find?] at ih ⊢
        simp [h2, ih]

/-- Adding a value under one key leaves every other key's lookup
unchanged. -/
theorem headerGet_headerAdd_ne (hs : Values) (k v k₂ : String)
    (hne : k₂ ≠ k) :
    headerGet (headerAdd hs k v) k₂ = headerGet hs k₂ := by
  have hbeq : (k == k₂) = false := by
    simp
    intro h
    exact absurd h.symm hne
  induction hs with
  | nil => simp [headerGet, headerAdd, valuesGet, hbeq]
  | cons p rest ih =>
    obtain ⟨k', vs⟩ := p
    cases h : (k' == k) with
    | true =>
      have hk' : k' = k := by simpa using h
      subst hk'
      simp [headerGet, headerAdd, valuesGet, h, hbeq]
    | false =>
      simp only [headerAdd, h, Bool.false_eq_true, if_false]
      cases h2 : (k' == k₂) with
      | true => simp [headerGet, valuesGet, h2]
      | false =>
        simp only [headerGet, valuesGet, List.find?] at ih ⊢
        simp [h2, ih]

/-- Folding `headerAdd` over values of a different key preserves a lookup. -/
theorem headerGet_foldl_headerAdd (vals : List String) (k₁ k : String)
    (hne : k₁ ≠ k) :
    ∀ acc : Values,
      headerGet (vals.foldl (fun a v => headerAdd a k₁ v) acc) k =
        headerGet acc k := by
  induction vals with
  | nil => intro acc; rfl
  | cons v vs ih =>
    intro acc
    rw [List.foldl_cons, ih,
      headerGet_headerAdd_ne acc k₁ v k fun h => hne h.symm]

/-- Copying a header table that never mentions `k` leaves `k` absent. -/
theorem headerGet_copyHeaders_none (src : Values) (k : String)
    (h : ∀ p ∈ src, p.1 ≠ k) :
    headerGet (copyHeaders src) k = none := by
  have gen : ∀ (src' : Values), (∀ p ∈ src', p.1 ≠ k) → ∀ acc : Values,
      headerGet
        (src'.foldl (fun acc p => p.2.foldl (fun a v => headerAdd a p.1 v)
          acc) acc) k = headerGet acc k := by
    intro src'
    induction src' with
    | nil => intro _ acc; rfl
    | cons p rest ih =>
      intro hall acc
      rw [List.foldl_cons, ih (fun q hq => hall q (List.mem_cons_of_mem _ hq)),
        headerGet_foldl_headerAdd p.2 p.1 k (hall p (List.mem_cons_self _ _))]
  exact gen src h []

/-- The GET path with the store producing `res`, abbreviated. -/
theorem ServeHTTPGet_miss_eq (endpoints : List EndpointCacheConfig)
    (defaultTTL : Int) (cfg : RetryConfig)
    (upstream : Int → AttemptOutcome) (fmtTime : Int → String)
    (path : String) (query headers : Values) (bodyReadOk : Bool) (now : Int) :
    ServeHTTPGet endpoints defaultTTL cfg upstream fmtTime path query headers
        .missNil bodyReadOk now =
      forwardAndCache cfg upstream bodyReadOk now
        (GenerateCacheKey "GET" path query headers
          (GetEndpointCacheConfig endpoints path "GET" query))
        (GetEndpointCacheConfig endpoints path "GET" query) defaultTTL := rfl

/-- C6: a store read error or a malformed stored entry is handled exactly
like a `redis.Nil` miss — the request proceeds to the upstream call with the
same derived key and rule, and nothing about the fault reaches the client;
a not-found result yields a miss and no error value at all. -/
theorem C6_store_fault_is_miss (endpoints : List EndpointCacheConfig)
    (defaultTTL : Int) (cfg : RetryConfig)
    (upstream : Int → AttemptOutcome) (fmtTime : Int → String)
    (path : String) (query headers : Values) (bodyReadOk : Bool) (now : Int) :
    (∀ e : String,
      ServeHTTPGet endpoints defaultTTL cfg upstream fmtTime path query
          headers (.errOther e) bodyReadOk now =
        ServeHTTPGet endpoints defaultTTL cfg upstream fmtTime path query
          headers .missNil bodyReadOk now) ∧
    (∀ e : String,
      ServeHTTPGet endpoints defaultTTL cfg upstream fmtTime path query
          headers (.malformed e) bodyReadOk now =
        ServeHTTPGet endpoints defaultTTL cfg upstream fmtTime path query
          headers .missNil bodyReadOk now) ∧
    ServeHTTPGet endpoints defaultTTL cfg upstream fmtTime path query
        headers .missNil bodyReadOk now =
      forwardAndCache cfg upstream bodyReadOk now
        (GenerateCacheKey "GET" path query headers
          (GetEndpointCacheConfig endpoints path "GET" query))
        (GetEndpointCacheConfig endpoints path "GET" query) defaultTTL ∧
    cacheGet .missNil = (none, none) :=
  ⟨fun _ => rfl, fun _ => rfl, rfl, rfl⟩

/-- Retry policy with retry disabled (a single upstream attempt is made). -/
def retryCfgOff : RetryConfig :=
  { enabled := false, maxAttempts := 3, retryableStatusCodes := [500] }

/-- An upstream answering 200 on every attempt. -/
def upstreamAll200 : Int → AttemptOutcome := fun _ => .response resp200

/-- C7 fails on the code: the synthetic error paths go through
`http.Error`, which is called before any cache header is set, so the
upstream-unavailable 502 response and the body-read-failure 500 response of
a GET request carry no `X-Cache` header at all. -/
theorem C7_counterexample :
    (ServeHTTPGet [] second retryCfgOff cancelUpstream toString "/x" [] []
        .missNil true 0).1.status = 502 ∧
    headerGet (ServeHTTPGet [] second retryCfgOff cancelUpstream toString
        "/x" [] [] .missNil true 0).1.headers "X-Cache" = none ∧
    (ServeHTTPGet [] second retryCfgOff upstreamAll200 toString "/x" [] []
        .missNil false 0).1.status = 500 ∧
    headerGet (ServeHTTPGet [] second retryCfgOff upstreamAll200 toString
        "/x" [] [] .missNil false 0).1.headers "X-Cache" = none :=
  ⟨rfl, rfl, rfl, rfl⟩

/-- C7 amended: a GET response served from the store carries
`X-Cache: HIT` together with `X-Cache-Time`; a GET response assembled from
an upstream response carries `X-Cache: MISS` and (when the upstream itself
sent no such header) no `X-Cache-Time`; the synthetic 502 and 500 error
responses carry neither header. -/
theorem C7_cache_headers :
    (∀ (fmtTime : Int → String) (cached : CachedResponse),
      headerGet (serveCachedResponse fmtTime cached).headers "X-Cache" =
          some ["HIT"] ∧
        headerGet (serveCachedResponse fmtTime cached).headers
          "X-Cache-Time" = some [fmtTime cached.cachedAt]) ∧
    (∀ (cfg : RetryConfig) (upstream : Int → AttemptOutcome)
        (resp : HttpResponse) (now : Int) (cacheKey : String)
        (epc : Option EndpointCacheConfig) (dttl : Int),
      (forwardWithRetry cfg upstream).1 = .success resp →
      (∀ p ∈ resp.headers, p.1 ≠ "X-Cache-Time") →
      headerGet (forwardAndCache cfg upstream true now cacheKey epc
          dttl).1.headers "X-Cache" = some ["MISS"] ∧
        headerGet (forwardAndCache cfg upstream true now cacheKey epc
          dttl).1.headers "X-Cache-Time" = none) ∧
    (∀ (cfg : RetryConfig) (upstream : Int → AttemptOutcome)
        (err : Option String) (bodyReadOk : Bool) (now : Int)
        (cacheKey : String) (epc : Option EndpointCacheConfig) (dttl : Int),
      (forwardWithRetry cfg upstream).1 = .failure err →
      (forwardAndCache cfg upstream bodyReadOk now cacheKey epc
          dttl).1.status = 502 ∧
        headerGet (forwardAndCache cfg upstream bodyReadOk now cacheKey epc
          dttl).1.headers "X-Cache" = none ∧
        headerGet (forwardAndCache cfg upstream bodyReadOk now cacheKey epc
          dttl).1.headers "X-Cache-Time" = none) ∧
    (∀ (cfg : RetryConfig) (upstream : Int → AttemptOutcome)
        (resp : HttpResponse) (now : Int) (cacheKey : String)
        (epc : Option EndpointCacheConfig) (dttl : Int),
      (forwardWithRetry cfg upstream).1 = .success resp →
      (forwardAndCache cfg upstream false now cacheKey epc
          dttl).1.status = 500 ∧
        headerGet (forwardAndCache cfg upstream false now cacheKey epc
          dttl).1.headers "X-Cache" = none ∧
        headerGet (forwardAndCache cfg upstream false now cacheKey epc
          dttl).1.headers "X-Cache-Time" = none) := by
  refine ⟨?_, ?_, ?_, ?_⟩
  · intro fmtTime cached
    constructor
    · rw [serveCachedResponse]
      rw [headerGet_headerSet_ne _ _ _ _ (by decide),
        headerGet_headerSet_self]
    · rw [serveCachedResponse]
      rw [headerGet_headerSet_self]
  · intro cfg upstream resp now cacheKey epc dttl hs hh
    have hred : (forwardAndCache cfg upstream true now cacheKey epc
        dttl).1.headers =
        headerSet (copyHeaders resp.headers) "X-Cache" "MISS" := by
      simp [forwardAndCache, hs]
    rw [hred]
    constructor
    · rw [headerGet_headerSet_self]
    · rw [headerGet_headerSet_ne _ _ _ _ (by decide),
        headerGet_copyHeaders_none _ _ hh]
  · intro cfg upstream err bodyReadOk now cacheKey epc dttl hf
    have hred : forwardAndCache cfg upstream bodyReadOk now cacheKey epc
        dttl = (httpError "upstream service unavailable" 502, none) := by
      simp [forwardAndCache, hf]
    rw [hred]
    exact ⟨rfl, rfl, rfl⟩
  · intro cfg upstream resp now cacheKey epc dttl hs
    have hred : forwardAndCache cfg upstream false now cacheKey epc
        dttl = (httpError "failed to read upstream response" 500, none) := by
      simp [forwardAndCache, hs]
    rw [hred]
    exact ⟨rfl, rfl, rfl⟩

/-- A stored entry used by the C7 witness. -/
def cachedEntryEx : CachedResponse :=
  { statusCode := 200, headers := [("Content-Type", ["application/json"])]
    body := "{}", cachedAt := 5 }

/-- Witness for C7 amended, at concrete hit, miss and failure scenarios. -/
theorem C7_cache_headers_witness :
    (headerGet (serveCachedResponse toString cachedEntryEx).headers
        "X-Cache" = some ["HIT"] ∧
      headerGet (serveCachedResponse toString cachedEntryEx).headers
        "X-Cache-Time" = some [toString (5 : Int)]) ∧
    (headerGet (forwardAndCache retryCfgOff upstreamAll200 true 0 "k" none
        second).1.headers "X-Cache" = some ["MISS"] ∧
      headerGet (forwardAndCache retryCfgOff upstreamAll200 true 0 "k" none
        second).1.headers "X-Cache-Time" = none) ∧
    (forwardAndCache retryCfgOff cancelUpstream true 0 "k" none
        second).1.status = 502 ∧
    (forwardAndCache retryCfgOff upstreamAll200 false 0 "k" none
        second).1.status = 500 := by
  refine ⟨?_, ?_, ?_, ?_⟩
  · exact C7_cache_headers.1 toString cachedEntryEx
  · exact C7_cache_headers.2.1 retryCfgOff upstreamAll200 resp200 0 "k" none
      second rfl (by decide)
  · exact (C7_cache_headers.2.2.1 retryCfgOff cancelUpstream
      (some "context canceled") true 0 "k" none second rfl).1
  · exact (C7_cache_headers.2.2.2 retryCfgOff upstreamAll200 resp200 0 "k"
      none second rfl).1

/-- C5: for a GET that reaches the upstream (and whose body is read), a
store write is issued exactly when the status is in `[200, 300)`; the write
carries the derived key, the response verbatim, and the rule's TTL when
positive (the process default otherwise); any other status is passed through
to the client with no store write — and no scenario whatsoever (including a
failed body read or no upstream response) writes a non-2xx entry. -/
theorem C5_populate_iff_2xx :
    (∀ (cfg : RetryConfig) (upstream : Int → AttemptOutcome)
        (resp : HttpResponse) (now : Int) (cacheKey : String)
        (epc : Option EndpointCacheConfig) (dttl : Int),
      (forwardWithRetry cfg upstream).1 = .success resp →
      ((forwardAndCache cfg upstream true now cacheKey epc dttl).2.isSome ↔
        (200 ≤ resp.statusCode ∧ resp.statusCode < 300)) ∧
      (∀ sw, (forwardAndCache cfg upstream true now cacheKey epc dttl).2 =
          some sw →
        sw.key = cacheKey ∧
        sw.ttl = (match epc with
                  | some c => if 0 < c.ttl then c.ttl else dttl
                  | none => dttl) ∧
        sw.entry.statusCode = resp.statusCode ∧
        sw.entry.headers = resp.headers ∧
        sw.entry.body = resp.body ∧
        sw.entry.cachedAt = now) ∧
      (¬(200 ≤ resp.statusCode ∧ resp.statusCode < 300) →
        (forwardAndCache cfg upstream true now cacheKey epc dttl).2 = none ∧
        (forwardAndCache cfg upstream true now cacheKey epc
          dttl).1.status = resp.statusCode ∧
        (forwardAndCache cfg upstream true now cacheKey epc
          dttl).1.body = resp.body)) ∧
    (∀ (cfg : RetryConfig) (upstream : Int → AttemptOutcome)
        (bodyReadOk : Bool) (now : Int) (cacheKey : String)
        (epc : Option EndpointCacheConfig) (dttl : Int) (sw : StoreWrite),
      (forwardAndCache cfg upstream bodyReadOk now cacheKey epc dttl).2 =
        some sw →
      ∃ resp, (forwardWithRetry cfg upstream).1 = .success resp ∧
        200 ≤ resp.statusCode ∧ resp.statusCode < 300 ∧
        sw.entry.statusCode = resp.statusCode) := by
  constructor
  · intro cfg upstream resp now cacheKey epc dttl hs
    have hiff : ((decide (200 ≤ resp.statusCode) &&
        decide (resp.statusCode < 300)) = true) ↔
        (200 ≤ resp.statusCode ∧ resp.statusCode < 300) := by
      simp
    by_cases hc : 200 ≤ resp.statusCode ∧ resp.statusCode < 300
    · have hb := hiff.mpr hc
      have hred : forwardAndCache cfg upstream true now cacheKey epc dttl =
          ({ status := resp.statusCode
             headers := headerSet (copyHeaders resp.headers) "X-Cache" "MISS"
             body := resp.body },
           some { key := cacheKey
                  entry := { statusCode := resp.statusCode
                             headers := resp.headers
                             body := resp.body
                             cachedAt := now }
                  ttl := getTTL epc dttl }) := by
        simp [forwardAndCache, hs, hb]
      rw [hred]
      refine ⟨by simp [hc], ?_, fun hnc => absurd hc hnc⟩
      intro sw hsw
      have hswv := Option.some.inj hsw
      subst hswv
      exact ⟨rfl, by simp [getTTL], rfl, rfl, rfl, rfl⟩
    · have hb : (decide (200 ≤ resp.statusCode) &&
          decide (resp.statusCode < 300)) = false := by
        cases h : (decide (200 ≤ resp.statusCode) &&
            decide (resp.statusCode < 300)) with
        | false => rfl
        | true => exact absurd (hiff.mp h) hc
      have hred : forwardAndCache cfg upstream true now cacheKey epc dttl =
          ({ status := resp.statusCode
             headers := headerSet (copyHeaders resp.headers) "X-Cache" "MISS"
             body := resp.body }, none) := by
        simp [forwardAndCache, hs, hb]
      rw [hred]
      exact ⟨by simp [hc], fun sw hsw => absurd hsw (by simp),
        fun _ => ⟨rfl, rfl, rfl⟩⟩
  · intro cfg upstream bodyReadOk now cacheKey epc dttl sw hsw
    cases hf : (forwardWithRetry cfg upstream).1 with
    | failure err =>
      rw [show (forwardAndCache cfg upstream bodyReadOk now cacheKey epc
          dttl).2 = none by simp [forwardAndCache, hf]] at hsw
      exact absurd hsw (by simp)
    | success resp =>
      cases hbody : bodyReadOk with
      | false =>
        subst hbody
        rw [show (forwardAndCache cfg upstream false now cacheKey epc
            dttl).2 = none by simp [forwardAndCache, hf]] at hsw
        exact absurd hsw (by simp)
      | true =>
        subst hbody
        by_cases hc : 200 ≤ resp.statusCode ∧ resp.statusCode < 300
        · have hb : (decide (200 ≤ resp.statusCode) &&
              decide (resp.statusCode < 300)) = true := by simp [hc.1, hc.2]
          have hsw2 : some (StoreWrite.mk cacheKey
              (CachedResponse.mk resp.statusCode resp.headers resp.body now)
              (getTTL epc dttl)) = some sw := by
            rw [← hsw]
            simp [forwardAndCache, hf, hb]
          refine ⟨resp, rfl, hc.1, hc.2, ?_⟩
          have := Option.some.inj hsw2
          rw [← this]
        · have hb : (decide (200 ≤ resp.statusCode) &&
              decide (resp.statusCode < 300)) = false := by
            cases h : (decide (200 ≤ resp.statusCode) &&
                decide (resp.statusCode < 300)) with
            | false => rfl
            | true => exact absurd (by simpa using h) hc
          rw [show (forwardAndCache cfg upstream true now cacheKey epc
              dttl).2 = none by simp [forwardAndCache, hf, hb]] at hsw
          exact absurd hsw (by simp)

/-- A non-2xx upstream response. -/
def resp404 : HttpResponse :=
  { statusCode := 404, headers := [], body := "not found" }

/-- An upstream answering 404 on every attempt. -/
def upstreamNotFound : Int → AttemptOutcome := fun _ => .response resp404

/-- Witness for C5: a 200 response is written with the resolved TTL; a 404
response is passed through unwritten. -/
theorem C5_populate_iff_2xx_witness :
    ((forwardAndCache retryCfgOff upstreamAll200 true 0 "k" none
        second).2.isSome ↔ ((200 : Int) ≤ 200 ∧ (200 : Int) < 300)) ∧
    (forwardAndCache retryCfgOff upstreamNotFound true 0 "k" none
        second).2 = none ∧
    (forwardAndCache retryCfgOff upstreamNotFound true 0 "k" none
        second).1.status = 404 := by
  refine ⟨?_, ?_, ?_⟩
  · exact (C5_populate_iff_2xx.1 retryCfgOff upstreamAll200 resp200 0 "k"
      none second rfl).1
  · exact ((C5_populate_iff_2xx.1 retryCfgOff upstreamNotFound resp404 0 "k"
      none second rfl).2.2 (by decide)).1
  · exact ((C5_populate_iff_2xx.1 retryCfgOff upstreamNotFound resp404 0 "k"
      none second rfl).2.2 (by decide)).2.1

/-! Cache-key lemmas -/

/-- The query component of the key depends only on the key-relevant
lookups. -/
theorem cacheKeyQueryComponent_congr (c : EndpointCacheConfig)
    (q1 q2 : Values)
    (h : ∀ p ∈ c.cacheKeyQueryParams,
      valuesGetFirst q1 p = valuesGetFirst q2 p) :
    cacheKeyQueryComponent q1 c = cacheKeyQueryComponent q2 c := by
  have hfm : (c.cacheKeyQueryParams.filterMap fun param =>
      let val := valuesGetFirst q1 param
      if val == "" then none else some (param ++ "=" ++ val)) =
      (c.cacheKeyQueryParams.filterMap fun param =>
        let val := valuesGetFirst q2 param
        if val == "" then none else some (param ++ "=" ++ val)) :=
    List.filterMap_congr fun p hp => by simp only [h p hp]
  unfold cacheKeyQueryComponent
  rw [hfm]

/-- The header component of the key depends only on the key-relevant
lookups. -/
theorem cacheKeyHeaderComponent_congr (c : EndpointCacheConfig)
    (h1 h2 : Values)
    (h : ∀ p ∈ c.cacheKeyHeaders,
      valuesGetFirst h1 p = valuesGetFirst h2 p) :
    cacheKeyHeaderComponent h1 c = cacheKeyHeaderComponent h2 c := by
  have hfm : (c.cacheKeyHeaders.filterMap fun header =>
      let val := valuesGetFirst h1 header
      if val == "" then none else some (header ++ "=" ++ val)) =
      (c.cacheKeyHeaders.filterMap fun header =>
        let val := valuesGetFirst h2 header
        if val == "" then none else some (header ++ "=" ++ val)) :=
    List.filterMap_congr fun p hp => by simp only [h p hp]
  unfold cacheKeyHeaderComponent
  rw [hfm]

/-- Left cancellation for string concatenation. -/
theorem string_append_left_cancel (a x y : String) (h : a ++ x = a ++ y) :
    x = y := by
  have h2 : a.data ++ x.data = a.data ++ y.data := by
    rw [← String.data_append, ← String.data_append, h]
  exact String.ext (List.append_cancel_left h2)

/-- The rule of the C3 counterexample: two key-relevant query parameters,
one of whose names itself contains `=` and `&`. -/
def keyCollisionRule : EndpointCacheConfig :=
  { path := "/q", pathRegex := "", methods := ["GET"], ttl := 0
    cacheKeyHeaders := [], cacheKeyQueryParams := ["p", "p=a&p"]
    matchQueryParams := [], matchQueryParamsRegex := [], compiledRegex := none
    compiledQueryParamRegex := [] }

/-- First colliding request: `p = "a&p=b"`, `p=a&p = "b&p=a"`. -/
def collisionQuery1 : Values := [("p", ["a&p=b"]), ("p=a&p", ["b&p=a"])]

/-- Second colliding request: `p = "b&p=a"`, `p=a&p = "b&p=a"`. -/
def collisionQuery2 : Values := [("p", ["b&p=a"]), ("p=a&p", ["b&p=a"])]

/-- C3's last clause fails on the code: these two requests differ in exactly
one key-relevant value (parameter `p`; the other key-relevant parameter and
everything else agree), yet the `name=value` components joined with `&`
produce the identical digest input `GET:/q:p=a&p=b&p=a&p=b&p=a`, so the
generated keys are equal with certainty — not merely by an improbable
SHA-256 collision. -/
theorem C3_counterexample :
    GenerateCacheKeyString "GET" "/q" collisionQuery1 []
        (some keyCollisionRule) =
      GenerateCacheKeyString "GET" "/q" collisionQuery2 []
        (some keyCollisionRule) ∧
    GenerateCacheKey "GET" "/q" collisionQuery1 [] (some keyCollisionRule) =
      GenerateCacheKey "GET" "/q" collisionQuery2 [] (some keyCollisionRule) ∧
    valuesGetFirst collisionQuery1 "p" ≠ valuesGetFirst collisionQuery2 "p" ∧
    valuesGetFirst collisionQuery1 "p" ≠ "" ∧
    valuesGetFirst collisionQuery2 "p" ≠ "" ∧
    valuesGetFirst collisionQuery1 "p=a&p" =
      valuesGetFirst collisionQuery2 "p=a&p" ∧
    "p" ∈ keyCollisionRule.cacheKeyQueryParams := by
  have h1 : GenerateCacheKeyString "GET" "/q" collisionQuery1 []
      (some keyCollisionRule) =
      GenerateCacheKeyString "GET" "/q" collisionQuery2 []
        (some keyCollisionRule) := by rfl
  refine ⟨h1, ?_, by decide, by decide, by decide, by decide, by decide⟩
  show "cache:" ++ SHA256.sha256hex (GenerateCacheKeyString "GET" "/q"
      collisionQuery1 [] (some keyCollisionRule)) =
    "cache:" ++ SHA256.sha256hex (GenerateCacheKeyString "GET" "/q"
      collisionQuery2 [] (some keyCollisionRule))
  rw [h1]

/-- C3 amended: the generated key depends only on the method, the path, and
the first values of the rule's key-relevant query parameters and headers —
so identical key-relevant values give the identical key, and unconfigured
query parameters and headers never change it. A single differing
key-relevant value changes the digest input in the clean single-parameter
case (see `C3_single_param_distinct`), but not in general: parameter names
containing `=` and values containing `&` can make two such digest inputs
(and hence the keys, with certainty) coincide. -/
theorem C3_key_relevance (method path : String)
    (query1 headers1 query2 headers2 : Values)
    (epc : Option EndpointCacheConfig)
    (hq : ∀ c, epc = some c → ∀ p ∈ c.cacheKeyQueryParams,
      valuesGetFirst query1 p = valuesGetFirst query2 p)
    (hh : ∀ c, epc = some c → ∀ p ∈ c.cacheKeyHeaders,
      valuesGetFirst headers1 p = valuesGetFirst headers2 p) :
    GenerateCacheKey method path query1 headers1 epc =
      GenerateCacheKey method path query2 headers2 epc := by
  have hks : GenerateCacheKeyString method path query1 headers1 epc =
      GenerateCacheKeyString method path query2 headers2 epc := by
    cases epc with
    | none => rfl
    | some c =>
      unfold GenerateCacheKeyString
      dsimp only []
      rw [cacheKeyQueryComponent_congr c query1 query2 (hq c rfl),
        cacheKeyHeaderComponent_congr c headers1 headers2 (hh c rfl)]
  show "cache:" ++ SHA256.sha256hex (GenerateCacheKeyString method path
      query1 headers1 epc) =
    "cache:" ++ SHA256.sha256hex (GenerateCacheKeyString method path
      query2 headers2 epc)
  rw [hks]

/-- A rule designating `function` as the only key-relevant query parameter
and no key-relevant headers. -/
def keyRuleFn : EndpointCacheConfig :=
  { path := "/q", pathRegex := "", methods := ["GET"], ttl := 0
    cacheKeyHeaders := [], cacheKeyQueryParams := ["function"]
    matchQueryParams := [], matchQueryParamsRegex := [], compiledRegex := none
    compiledQueryParamRegex := [] }

/-- Witness for C3 amended: noise (`nocache` parameter, `X-Trace` header)
that the rule does not designate as key-relevant leaves the key unchanged. -/
theorem C3_key_relevance_witness :
    GenerateCacheKey "GET" "/q" [("function", ["EOD"]), ("nocache", ["1"])]
        [("X-Trace", ["abc"])] (some keyRuleFn) =
      GenerateCacheKey "GET" "/q" [("function", ["EOD"])] []
        (some keyRuleFn) :=
  C3_key_relevance "GET" "/q" [("function", ["EOD"]), ("nocache", ["1"])]
    [("X-Trace", ["abc"])] [("function", ["EOD"])] [] (some keyRuleFn)
    (by
      intro c hc
      injection hc with hc2
      subst hc2
      decide)
    (by
      intro c hc
      injection hc with hc2
      subst hc2
      intro p hp
      simp [keyRuleFn] at hp)

/-- The positive remainder of C3's last clause: for a rule with a single
key-relevant query parameter and no key-relevant headers, two requests whose
first values for that parameter are non-empty and different produce
different digest inputs — the keys can then only coincide through a SHA-256
collision. -/
theorem C3_single_param_distinct (method path : String) (p : String)
    (q1 h1 q2 h2 : Values) (c : EndpointCacheConfig)
    (hps : c.cacheKeyQueryParams = [p]) (hhs : c.cacheKeyHeaders = [])
    (hv1 : valuesGetFirst q1 p ≠ "") (hv2 : valuesGetFirst q2 p ≠ "")
    (hne : valuesGetFirst q1 p ≠ valuesGetFirst q2 p) :
    GenerateCacheKeyString method path q1 h1 (some c) ≠
      GenerateCacheKeyString method path q2 h2 (some c) := by
  have hcomp : ∀ q : Values, valuesGetFirst q p ≠ "" →
      cacheKeyQueryComponent q c = some (p ++ "=" ++ valuesGetFirst q p) := by
    intro q hv
    unfold cacheKeyQueryComponent
    rw [hps]
    simp [hv, sortStrings, insertSorted, String.intercalate,
      String.intercalate.go]
  have hhdr : ∀ q : Values, cacheKeyHeaderComponent q c = none := by
    intro q
    unfold cacheKeyHeaderComponent
    rw [hhs]
    simp
  have hred : ∀ (q hdr : Values), valuesGetFirst q p ≠ "" →
      GenerateCacheKeyString method path q hdr (some c) =
        (method ++ ":" ++ path ++ ":" ++ (p ++ "=")) ++
          valuesGetFirst q p := by
    intro q hdr hv
    unfold GenerateCacheKeyString
    dsimp only []
    rw [hcomp q hv, hhdr hdr]
    show String.intercalate ":"
      [method, path, p ++ "=" ++ valuesGetFirst q p] = _
    have : String.intercalate ":" [method, path,
        p ++ "=" ++ valuesGetFirst q p] =
        method ++ ":" ++ path ++ ":" ++ (p ++ "=" ++ valuesGetFirst q p) := by
      simp [String.intercalate, String.intercalate.go]
    rw [this, ← String.append_assoc]
  intro heq
  rw [hred q1 h1 hv1, hred q2 h2 hv2] at heq
  exact hne (string_append_left_cancel _ _ _ heq)

/-- Witness for the single-parameter digest-input distinctness, at
`function=EOD` versus `function=INTRADAY`. -/
theorem C3_single_param_distinct_witness :
    GenerateCacheKeyString "GET" "/q" [("function", ["EOD"])] []
        (some keyRuleFn) ≠
      GenerateCacheKeyString "GET" "/q" [("function", ["INTRADAY"])] []
        (some keyRuleFn) :=
  C3_single_param_distinct "GET" "/q" "function"
    [("function", ["EOD"])] [] [("function", ["INTRADAY"])] [] keyRuleFn
    rfl rfl (by decide) (by decide) (by decide)

end ApiCache
